import Mathlib

/-!
# Verification of the WPlace line-tile downloader (`src/app.js`, lines ~500–779)

Shallow embedding of the tile-download pipeline of this repository:

* the tile coordinate mapper `lonLatToWplaceTile`,
* the geometry sampler `getTilesForLineSegment`,
* the negative-result cache `cache404` with `loadCache404` / `saveCache404`,
* the tile fetcher `downloadWplaceTile` with its retry/backoff logic,
* the pipeline driver `downloadWplaceLineTiles`.

Modelling conventions:

* JavaScript floating-point numbers are modelled as rationals (`ℚ`); the
  claims under study concern control flow, counts and set membership, not
  floating-point rounding.
* The two OpenLayers library calls (`fromLonLat`,
  `createXYZ(...).getTileCoordForCoordAndZ`) are third-party code, not code of
  this repository; they are abstracted as a function parameter `grid`.  Every
  guard and computation around them is translated from the repository source.
* Effects are made explicit: the filesystem is a field of the state
  (`DLState.files` for tile images, a separate `Option (List String)` for the
  parsed JSON array in `wplace_404_cache.json`), the network is a list of
  `FetchOutcome`s consumed one per `fetch` call, and each timed backoff is
  logged in a list of waited milliseconds.  Running out of supplied responses
  makes the model return `none` (the corresponding real run would perform a
  further network call), so a result of `some _` obtained from an empty
  response list proves that no network call happened.
-/

namespace WplaceDownloader

/-! ## Configuration constants (`src/app.js` lines 501–513) -/

def WPLACE_BASE_URL : String := "https://backend.wplace.live/files/s0/tiles"

def OUTPUT_DIR : String := "public/wplace_tiles"

def CACHE_404_FILE : String := "wplace_404_cache.json"

def DELAY_MS : ℕ := 500

def DELAY_RATE_LIMIT_MS : ℕ := 5000

/-- WPlace uses only zoom level 11. -/
def WPLACE_ZOOM : ℕ := 11

/-! ## Tile coordinate mapper (`lonLatToWplaceTile`, lines 556–574) -/

/-- A tile coordinate `{ x, y, z }` as returned by `lonLatToWplaceTile`. -/
structure Tile where
  x : ℤ
  y : ℤ
  z : ℕ
deriving DecidableEq, Repr

/-- Embedding of `lonLatToWplaceTile(lon, lat)`.

`fromLonLat` and `createXYZ({...}).getTileCoordForCoordAndZ(coord, WPLACE_ZOOM)`
are OpenLayers library calls (third-party, not repository code); their
composition is abstracted as the parameter `grid`, returning the `x, y` parts
of the tile coordinate (its `z` part always echoes the requested
`WPLACE_ZOOM`), or `none` for a null/undefined result (the source's
`if (tileCoord)` check).  The range guard `x >= 0 && x <= max && y >= 0 &&
y <= max` with `max = (1 << z) - 1` is the repository's own code and is
translated literally (`1 << z = 2 ^ z`). -/
def lonLatToWplaceTile (grid : ℚ → ℚ → Option (ℤ × ℤ)) (lon lat : ℚ) : Option Tile :=
  match grid lon lat with
  | some xy =>
      let x := xy.1
      let y := xy.2
      let maxIdx : ℤ := 2 ^ WPLACE_ZOOM - 1
      if 0 ≤ x ∧ x ≤ maxIdx ∧ 0 ≤ y ∧ y ≤ maxIdx then
        some ⟨x, y, WPLACE_ZOOM⟩
      else
        none
  | none => none

/-! ## Geometry sampler (`getTilesForLineSegment`, lines 577–613) -/

/-- The quantity `maxDelta = Math.max(Math.abs(end[0]-start[0]), Math.abs(end[1]-start[1]))`. -/
def maxDelta (startCoord endCoord : ℚ × ℚ) : ℚ :=
  max |endCoord.1 - startCoord.1| |endCoord.2 - startCoord.2|

/-- The sample count `numPoints = Math.max(2, Math.ceil(maxDelta * 1000))`. -/
def numPoints (startCoord endCoord : ℚ × ℚ) : ℕ :=
  (max 2 ⌈maxDelta startCoord endCoord * 1000⌉).toNat

/-- The points visited by the loop `for (let i = 0; i <= numPoints; i++)`:
`t = i / numPoints`, `lon = start[0] + t*(end[0]-start[0])`,
`lat = start[1] + t*(end[1]-start[1])`.  Note the loop bound is inclusive, so
`numPoints + 1` points are produced. -/
def samplePoints (startCoord endCoord : ℚ × ℚ) : List (ℚ × ℚ) :=
  (List.range (numPoints startCoord endCoord + 1)).map fun (i : ℕ) =>
    let t : ℚ := (i : ℚ) / (numPoints startCoord endCoord : ℚ)
    (startCoord.1 + t * (endCoord.1 - startCoord.1),
     startCoord.2 + t * (endCoord.2 - startCoord.2))

/-- Embedding of `tiles.add(s)` on the JavaScript `Set<string>` keyed by the string
`x + "," + y`: membership-tested insertion preserving insertion order.  The
string key is modelled directly as the integer pair (the key function
is injective on integers). -/
def addTileKey (tiles : List (ℤ × ℤ)) (key : ℤ × ℤ) : List (ℤ × ℤ) :=
  if key ∈ tiles then tiles else tiles ++ [key]

/-- The inner double loop `for (const dx of [-1,0,1]) for (const dy of
[-1,0,1])` expanding one mapped tile into its clipped 3×3 neighborhood. -/
def expandTile (tiles : List (ℤ × ℤ)) (t : Tile) : List (ℤ × ℤ) :=
  ([-1, 0, 1] : List ℤ).foldl (fun acc dx =>
    ([-1, 0, 1] : List ℤ).foldl (fun acc2 dy =>
      let x := t.x + dx
      let y := t.y + dy
      let maxIdx : ℤ := 2 ^ WPLACE_ZOOM - 1
      if 0 ≤ x ∧ x ≤ maxIdx ∧ 0 ≤ y ∧ y ≤ maxIdx then
        addTileKey acc2 (x, y)
      else
        acc2) acc) tiles

/-- One iteration of the sampling loop body: map the point through
`lonLatToWplaceTile`; if it yields a tile, add its 3×3 neighborhood. -/
def sampleStep (grid : ℚ → ℚ → Option (ℤ × ℤ)) (tiles : List (ℤ × ℤ)) (p : ℚ × ℚ) :
    List (ℤ × ℤ) :=
  match lonLatToWplaceTile grid p.1 p.2 with
  | some tile => expandTile tiles tile
  | none => tiles

/-- Embedding of `getTilesForLineSegment(startCoord, endCoord)`: run the sampling loop,
then `Array.from(tiles).map(s => ({ x, y, z: WPLACE_ZOOM }))`. -/
def getTilesForLineSegment (grid : ℚ → ℚ → Option (ℤ × ℤ))
    (startCoord endCoord : ℚ × ℚ) : List Tile :=
  let keys := (samplePoints startCoord endCoord).foldl (sampleStep grid) []
  keys.map fun k => ⟨k.1, k.2, WPLACE_ZOOM⟩

/-! ## Negative-result cache and mutable state (lines 517–541)

The script's ambient mutable state: the `cache404` set of `"x/y"` string keys,
the `needsSave` dirty flag, and the set of tile image files already on disk
(queried by `existsSync`, written by `Bun.write`).  The JavaScript `Set` is
modelled as a list queried by membership (`Set.add` prepends here instead of
appending; only membership is ever observed). -/

structure DLState where
  cache404 : List String
  needsSave : Bool
  files : List String
deriving DecidableEq, Repr

/-- The content of `CACHE_404_FILE` as a parsed JSON array of strings;
`none` when the file is absent (or unreadable — both leave the in-memory
cache untouched in `loadCache404`). -/
abbrev CacheFile := Option (List String)

/-- Embedding of `loadCache404()`: if the cache file exists, replace `cache404` with a set
built from its parsed array; otherwise (or on a read error, which is caught
and only logged) leave the state unchanged.  `needsSave` is untouched. -/
def loadCache404 (st : DLState) (cacheFile : CacheFile) : DLState :=
  match cacheFile with
  | some data => { st with cache404 := data }
  | none => st

/-- Embedding of `saveCache404()`: no-op unless dirty; otherwise overwrite the backing file
wholesale with `JSON.stringify([...cache404])` and clear the dirty flag.  (The
source catches and logs write errors; the model takes the successful write.) -/
def saveCache404 (st : DLState) (cacheFile : CacheFile) : DLState × CacheFile :=
  if st.needsSave then ({ st with needsSave := false }, some st.cache404)
  else (st, cacheFile)

/-! ## Tile fetcher (`downloadWplaceTile`, lines 673–716) -/

/-- One network interaction for `fetch(url, { headers: HEADERS })`:
`ok` (`response.ok` true), `httpErr status statusText` (`response.ok` false),
or `netErr msg` (the `fetch` call itself threw). -/
inductive FetchOutcome where
  | ok : FetchOutcome
  | httpErr : ℕ → String → FetchOutcome
  | netErr : String → FetchOutcome
deriving DecidableEq, Repr

/-- The result object `{ success, reason?, cached? }` returned by
`downloadWplaceTile`.  Absent JavaScript fields are `none` / `false`. -/
structure DLResult where
  success : Bool
  reason : Option String
  cached : Bool
deriving DecidableEq, Repr

/-- The string `tileKey` = `` `${x}/${y}` ``. -/
def tileKey (x y : ℤ) : String := s!"{x}/{y}"

/-- The string `outputPath` = `` `${OUTPUT_DIR}/${x}/${y}.png` ``. -/
def outputPath (x y : ℤ) : String := s!"{OUTPUT_DIR}/{x}/{y}.png"

/-- Embedding of `downloadWplaceTile(x, y, retryCount)`.

Returns the result object, the updated state, the list of waited backoff
intervals in milliseconds (each `setTimeout` in order), and the unconsumed
tail of the supplied network responses; `none` when the supplied responses
are exhausted while another `fetch` would be issued.

Control flow translated from the source: check `cache404`, then `existsSync`;
then `fetch`.  A non-ok response that is a 404 caches the key and returns
reason `'404'`; a 429 with `retryCount < 3` waits `DELAY_RATE_LIMIT_MS` and
retries; any other non-ok response is `throw`n into the `catch` block, which
— also for transport errors — waits 1000 ms and retries while
`retryCount < 2`, else returns `{ success: false, reason: err.message }`.
A successful response writes the file and returns `{ success: true }`. -/
def downloadWplaceTile (x y : ℤ) (retryCount : ℕ) (st : DLState)
    (responses : List FetchOutcome) :
    Option (DLResult × DLState × List ℕ × List FetchOutcome) :=
  if st.cache404.contains (tileKey x y) then
    some (⟨false, some "cached_404", true⟩, st, [], responses)
  else if st.files.contains (outputPath x y) then
    some (⟨true, some "already_exists", true⟩, st, [], responses)
  else
    match responses with
    | [] => none
    | r :: rest =>
      match r with
      | .ok =>
          some (⟨true, none, false⟩,
            { st with files := outputPath x y :: st.files }, [], rest)
      | .httpErr status text =>
          if status = 404 then
            some (⟨false, some "404", false⟩,
              { st with cache404 := tileKey x y :: st.cache404, needsSave := true },
              [], rest)
          else if status = 429 ∧ retryCount < 3 then
            match downloadWplaceTile x y (retryCount + 1) st rest with
            | some (res, st2, waits, rem) =>
                some (res, st2, DELAY_RATE_LIMIT_MS :: waits, rem)
            | none => none
          else if retryCount < 2 then
            match downloadWplaceTile x y (retryCount + 1) st rest with
            | some (res, st2, waits, rem) => some (res, st2, 1000 :: waits, rem)
            | none => none
          else
            some (⟨false, some s!"HTTP {status}: {text}", false⟩, st, [], rest)
      | .netErr msg =>
          if retryCount < 2 then
            match downloadWplaceTile x y (retryCount + 1) st rest with
            | some (res, st2, waits, rem) => some (res, st2, 1000 :: waits, rem)
            | none => none
          else
            some (⟨false, some msg, false⟩, st, [], rest)

/-! ## Pipeline driver (`downloadWplaceLineTiles`, lines 718–776) -/

/-- The user-visible lines printed by the driver, in order: the per-tile
progress write, the per-outcome marks, the inter-request delay, the
"all already downloaded" message, the final tally line, and the fatal-error
message.  (Cache-save log lines are emitted inside `saveCache404` and are not
tracked.) -/
inductive DriverEvent where
  | progress : ℤ → ℤ → DriverEvent
  | tileDownloaded : DriverEvent
  | tileSkipped : DriverEvent
  | tileMissing : DriverEvent
  | tileFailed : DriverEvent
  | interDelay : ℕ → DriverEvent
  | allDone : DriverEvent
  | summary : ℕ → ℕ → ℕ → ℕ → DriverEvent
  | fatalError : String → DriverEvent
deriving DecidableEq, Repr

/-- The `for (let i = 0; ...)` loop of `downloadWplaceLineTiles`: one
iteration prints progress, fetches (the responses for iteration `i` are
`resp i`), classifies the result into the `downloaded / skipped / missing /
failed` tally, sleeps `DELAY_MS` between non-cached fetches, and flushes the
cache every 20 processed tiles when dirty. -/
def driverLoop (resp : ℕ → List FetchOutcome) (tiles : List (ℤ × ℤ)) (i : ℕ)
    (st : DLState) (cacheFile : CacheFile)
    (downloaded skipped missing failed : ℕ) (events : List DriverEvent) :
    Option (List DriverEvent × DLState × CacheFile × ℕ × ℕ × ℕ × ℕ) :=
  match tiles with
  | [] => some (events, st, cacheFile, downloaded, skipped, missing, failed)
  | (x, y) :: rest =>
    match downloadWplaceTile x y 0 st (resp i) with
    | none => none
    | some (res, st2, _waits, _rem) =>
      let events2 := events ++ [DriverEvent.progress x y]
      let tallied :
          List DriverEvent × ℕ × ℕ × ℕ × ℕ :=
        if res.success then
          if res.cached then
            (events2 ++ [DriverEvent.tileSkipped], downloaded, skipped + 1,
              missing, failed)
          else
            (events2 ++ [DriverEvent.tileDownloaded], downloaded + 1, skipped,
              missing, failed)
        else if res.reason = some "404" then
          (events2 ++ [DriverEvent.tileMissing], downloaded, skipped,
            missing + 1, failed)
        else
          (events2 ++ [DriverEvent.tileFailed], downloaded, skipped, missing,
            failed + 1)
      let events3 := tallied.1
      -- `if (!result.cached && i < tiles.length - 1) await sleep(DELAY_MS)`
      let events4 :=
        if res.cached = false ∧ rest ≠ [] then
          events3 ++ [DriverEvent.interDelay DELAY_MS]
        else events3
      -- `if (needsSave && (i % 20 === 0)) await saveCache404()`
      let saved :=
        if st2.needsSave = true ∧ i % 20 = 0 then saveCache404 st2 cacheFile
        else (st2, cacheFile)
      driverLoop resp rest (i + 1) saved.1 saved.2 tallied.2.1 tallied.2.2.1
        tallied.2.2.2.1 tallied.2.2.2.2 events4

/-- Embedding of `downloadWplaceLineTiles()`.

The feed argument abstracts `extractTilesFromGeoJSON()` (the GeoJSON fetch
plus sampling plus worklist filtering): `Except.error msg` is the fatal case
in which it threw (e.g. `Failed to fetch GeoJSON: ...`), `Except.ok tiles`
the worklist it returned.  Output: the printed events, the final state, the
final cache file, and the process exit code (0 on the normal return path,
1 via `process.exit(1)` in the `catch` block).  `none` again means the model
ran out of supplied network responses. -/
def downloadWplaceLineTiles (feed : Except String (List (ℤ × ℤ)))
    (resp : ℕ → List FetchOutcome) (st0 : DLState) (cacheFile0 : CacheFile) :
    Option (List DriverEvent × DLState × CacheFile × ℕ) :=
  let st1 := loadCache404 st0 cacheFile0
  match feed with
  | .error msg =>
      -- `catch`: log the fatal error, flush the cache, `process.exit(1)`
      let flushed := saveCache404 st1 cacheFile0
      some ([DriverEvent.fatalError msg], flushed.1, flushed.2, 1)
  | .ok tiles =>
      if tiles.isEmpty then
        some ([DriverEvent.allDone], st1, cacheFile0, 0)
      else
        match driverLoop resp tiles 0 st1 cacheFile0 0 0 0 0 [] with
        | none => none
        | some (events, st2, cacheFile2, d, s, m, f) =>
            let flushed := saveCache404 st2 cacheFile2
            some (events ++ [DriverEvent.summary d s m f], flushed.1,
              flushed.2, 0)

/-- Whether an event is the final count-by-outcome tally line. -/
def isSummaryEvent : DriverEvent → Bool
  | .summary _ _ _ _ => true
  | _ => false

/-- Whether an event list contains the final tally line. -/
def containsSummary (events : List DriverEvent) : Bool :=
  events.any isSummaryEvent

/-- A "generic" failure in the sense of the error taxonomy: a transport
error, or an HTTP error status other than 404 and 429 (those two have their
own dedicated handling). -/
def isGenericError : FetchOutcome → Prop
  | .ok => False
  | .httpErr status _ => status ≠ 404 ∧ status ≠ 429
  | .netErr _ => True

/-- The script's initial mutable state: empty 404 cache, clean flag, no tile
files on disk. -/
def initialState : DLState := ⟨[], false, []⟩

/-- Whether some network interaction in the list was an HTTP 404 response. -/
def has404Response (responses : List FetchOutcome) : Bool :=
  responses.any fun r =>
    match r with
    | FetchOutcome.httpErr status _ => status == 404
    | _ => false

/-- The `err.message` the `catch` block reports when a generic error is thrown
for this network interaction: the `Error` constructed from a non-ok HTTP
response carries `HTTP status: statusText`, a transport error carries its own
message. -/
def genericFailureMessage : FetchOutcome → String
  | .ok => ""
  | .httpErr status text => s!"HTTP {status}: {text}"
  | .netErr msg => msg

/-- A run in which the network is never available: any fetch attempt would
fail to find a scripted response. -/
def noResponses : ℕ → List FetchOutcome := fun _ => []

/-- A run in which every tile's single fetch succeeds. -/
def singleOkResponses : ℕ → List FetchOutcome := fun _ => [FetchOutcome.ok]

/-! ## Lemmas about the geometry sampler -/

theorem samplePoints_length (s e : ℚ × ℚ) :
    (samplePoints s e).length = numPoints s e + 1 := by
  simp only [samplePoints, List.length_map, List.length_range]

theorem samplePoints_get (s e : ℚ × ℚ) (i : ℕ)
    (h : i < (samplePoints s e).length) :
    (samplePoints s e).get ⟨i, h⟩ =
      (s.1 + (i : ℚ) / (numPoints s e : ℚ) * (e.1 - s.1),
       s.2 + (i : ℚ) / (numPoints s e : ℚ) * (e.2 - s.2)) := by
  simp only [samplePoints, List.get_eq_getElem, List.getElem_map,
    List.getElem_range]

theorem two_le_numPoints (s e : ℚ × ℚ) : 2 ≤ numPoints s e := by
  have h : (2 : ℤ) ≤ max 2 ⌈maxDelta s e * 1000⌉ := le_max_left _ _
  have h2 := Int.toNat_le_toNat h
  simp only [numPoints]
  exact h2

theorem numPoints_cast (s e : ℚ × ℚ) :
    (numPoints s e : ℤ) = max 2 ⌈maxDelta s e * 1000⌉ := by
  have h : (0 : ℤ) ≤ max 2 ⌈maxDelta s e * 1000⌉ :=
    le_trans (by norm_num) (le_max_left _ _)
  simp [numPoints, Int.toNat_of_nonneg h]

theorem start_mem_samplePoints (s e : ℚ × ℚ) : s ∈ samplePoints s e := by
  have hlen : 0 < (samplePoints s e).length := by
    rw [samplePoints_length]; omega
  have hget : (samplePoints s e).get ⟨0, hlen⟩ = s := by
    rw [samplePoints_get]; simp
  have hmem := List.get_mem (samplePoints s e) 0 hlen
  rw [hget] at hmem
  exact hmem

theorem end_mem_samplePoints (s e : ℚ × ℚ) : e ∈ samplePoints s e := by
  have hlen : numPoints s e < (samplePoints s e).length := by
    rw [samplePoints_length]; omega
  have hne : ((numPoints s e : ℚ)) ≠ 0 := by
    have h2 := two_le_numPoints s e
    exact Nat.cast_ne_zero.mpr (by omega)
  have hget : (samplePoints s e).get ⟨numPoints s e, hlen⟩ = e := by
    rw [samplePoints_get, div_self hne]
    simp
  have hmem := List.get_mem (samplePoints s e) (numPoints s e) hlen
  rw [hget] at hmem
  exact hmem

/-! ## Lemmas about tile-set accumulation -/

theorem mem_addTileKey_self (acc : List (ℤ × ℤ)) (k : ℤ × ℤ) :
    k ∈ addTileKey acc k := by
  unfold addTileKey
  split
  · assumption
  · simp

theorem mem_addTileKey_of_mem (acc : List (ℤ × ℤ)) (k k' : ℤ × ℤ)
    (h : k ∈ acc) : k ∈ addTileKey acc k' := by
  unfold addTileKey
  split
  · exact h
  · exact List.mem_append_left _ h

theorem foldl_mem_mono {α β : Type} (f : List α → β → List α)
    (hf : ∀ acc b k, k ∈ acc → k ∈ f acc b) :
    ∀ (l : List β) (acc : List α) (k : α), k ∈ acc → k ∈ l.foldl f acc := by
  intro l
  induction l with
  | nil => intro acc k h; simpa using h
  | cons b bs ih =>
      intro acc k h
      exact ih (f acc b) k (hf acc b k h)

theorem expandTile_mono (acc : List (ℤ × ℤ)) (t : Tile) (k : ℤ × ℤ)
    (h : k ∈ acc) : k ∈ expandTile acc t := by
  unfold expandTile
  refine foldl_mem_mono _ ?_ _ _ _ h
  intro acc2 dx k2 h2
  refine foldl_mem_mono _ ?_ _ _ _ h2
  intro acc3 dy k3 h3
  dsimp only
  split
  · exact mem_addTileKey_of_mem _ _ _ h3
  · exact h3

theorem sampleStep_mono (grid : ℚ → ℚ → Option (ℤ × ℤ))
    (acc : List (ℤ × ℤ)) (p : ℚ × ℚ) (k : ℤ × ℤ) (h : k ∈ acc) :
    k ∈ sampleStep grid acc p := by
  unfold sampleStep
  split
  · exact expandTile_mono _ _ _ h
  · exact h

/-- Inversion of a successful `lonLatToWplaceTile` call: the returned tile
carries the grid's indices, the fixed zoom, and indices within range. -/
theorem lonLatToWplaceTile_inv (grid : ℚ → ℚ → Option (ℤ × ℤ))
    (lon lat : ℚ) (t : Tile)
    (h : lonLatToWplaceTile grid lon lat = some t) :
    grid lon lat = some (t.x, t.y) ∧ t.z = WPLACE_ZOOM ∧
      0 ≤ t.x ∧ t.x ≤ 2 ^ WPLACE_ZOOM - 1 ∧
      0 ≤ t.y ∧ t.y ≤ 2 ^ WPLACE_ZOOM - 1 := by
  unfold lonLatToWplaceTile at h
  cases hg : grid lon lat with
  | none => rw [hg] at h; simp at h
  | some xy =>
      rw [hg] at h
      dsimp only at h
      split at h
      · rename_i hcond
        obtain ⟨h1, h2, h3, h4⟩ := hcond
        injection h with h5
        subst h5
        simp_all
      · simp at h

/-- The 3×3 expansion always contains the center tile, given that the center
is in the valid index range (as every tile returned by `lonLatToWplaceTile`
is). -/
theorem mem_ite_addTileKey (c : Prop) [Decidable c] (acc : List (ℤ × ℤ))
    (k k' : ℤ × ℤ) (h : k ∈ acc) :
    k ∈ (if c then addTileKey acc k' else acc) := by
  split
  · exact mem_addTileKey_of_mem _ _ _ h
  · exact h

theorem mem_expandTile_center (acc : List (ℤ × ℤ)) (t : Tile)
    (hx0 : 0 ≤ t.x) (hx1 : t.x ≤ 2 ^ WPLACE_ZOOM - 1)
    (hy0 : 0 ≤ t.y) (hy1 : t.y ≤ 2 ^ WPLACE_ZOOM - 1) :
    (t.x, t.y) ∈ expandTile acc t := by
  unfold expandTile
  simp only [List.foldl_cons, List.foldl_nil, add_zero]
  -- membership is established at the dx = 0, dy = 0 step and preserved by
  -- each of the four later steps of the 3×3 double loop
  apply mem_ite_addTileKey
  apply mem_ite_addTileKey
  apply mem_ite_addTileKey
  apply mem_ite_addTileKey
  rw [if_pos ⟨hx0, hx1, hy0, hy1⟩]
  exact mem_addTileKey_self _ _

theorem mem_foldl_of_mem_of_step {α β : Type} (f : List α → β → List α)
    (hmono : ∀ acc b k, k ∈ acc → k ∈ f acc b) (k : α) (b : β)
    (hstep : ∀ acc, k ∈ f acc b) :
    ∀ (l : List β) (acc : List α), b ∈ l → k ∈ l.foldl f acc := by
  intro l
  induction l with
  | nil => intro acc h; simp at h
  | cons c cs ih =>
      intro acc hb
      rcases List.mem_cons.mp hb with hb | hb
      · subst hb
        exact foldl_mem_mono f hmono cs (f acc b) k (hstep acc)
      · exact ih (f acc c) hb

/-- Any sample point that the mapper sends to a tile contributes that tile to
the sampler's output. -/
theorem mem_getTilesForLineSegment_of_sample
    (grid : ℚ → ℚ → Option (ℤ × ℤ)) (s e p : ℚ × ℚ) (t : Tile)
    (hp : p ∈ samplePoints s e)
    (ht : lonLatToWplaceTile grid p.1 p.2 = some t) :
    t ∈ getTilesForLineSegment grid s e := by
  obtain ⟨hgrid, hz, hx0, hx1, hy0, hy1⟩ := lonLatToWplaceTile_inv grid p.1 p.2 t ht
  have hkey : (t.x, t.y) ∈ (samplePoints s e).foldl (sampleStep grid) [] := by
    refine mem_foldl_of_mem_of_step (sampleStep grid)
      (sampleStep_mono grid) (t.x, t.y) p ?_ (samplePoints s e) [] hp
    intro acc
    unfold sampleStep
    rw [ht]
    exact mem_expandTile_center acc t hx0 hx1 hy0 hy1
  unfold getTilesForLineSegment
  have : (⟨t.x, t.y, WPLACE_ZOOM⟩ : Tile) = t := by
    cases t
    simp_all
  rw [← this]
  exact List.mem_map_of_mem _ hkey

/-! ## Claim theorems: mapper and sampler -/

/-- C3 (confirmed): for every GeoCoordinate within valid longitude/latitude
bounds, `lonLatToWplaceTile` returns either `none` or a tile whose `x` and
`y` indices both lie in `[0, 2^z − 1]` at the fixed zoom `z = WPLACE_ZOOM`;
never an out-of-range pair.  This holds for every behaviour of the
third-party projection/grid lookup `grid`. -/
theorem mapper_in_range_or_none (grid : ℚ → ℚ → Option (ℤ × ℤ))
    (lon lat : ℚ)
    (hlon0 : -180 ≤ lon) (hlon1 : lon ≤ 180)
    (hlat0 : -90 ≤ lat) (hlat1 : lat ≤ 90)
    (t : Tile) (ht : lonLatToWplaceTile grid lon lat = some t) :
    0 ≤ t.x ∧ t.x ≤ 2 ^ WPLACE_ZOOM - 1 ∧
      0 ≤ t.y ∧ t.y ≤ 2 ^ WPLACE_ZOOM - 1 ∧ t.z = WPLACE_ZOOM := by
  obtain ⟨_, hz, hx0, hx1, hy0, hy1⟩ := lonLatToWplaceTile_inv grid lon lat t ht
  exact ⟨hx0, hx1, hy0, hy1, hz⟩

/-- Witness for C3: a concrete in-bounds coordinate and a grid lookup
returning index pair (1024, 1024) at zoom 11 yields an in-range tile. -/
theorem mapper_in_range_or_none_witness :
    0 ≤ (1024 : ℤ) ∧ (1024 : ℤ) ≤ 2 ^ WPLACE_ZOOM - 1 ∧
      0 ≤ (1024 : ℤ) ∧ (1024 : ℤ) ≤ 2 ^ WPLACE_ZOOM - 1 ∧
      WPLACE_ZOOM = WPLACE_ZOOM :=
  mapper_in_range_or_none (fun _ _ => some (1024, 1024)) 0 0
    (by norm_num) (by norm_num) (by norm_num) (by norm_num)
    ⟨1024, 1024, WPLACE_ZOOM⟩ (by decide)

/-- C4 (confirmed): the sampler's output tile set is a superset of the tiles
containing the segment's two endpoint coordinates — whenever the mapper
assigns a tile to an endpoint, that tile is in `getTilesForLineSegment`'s
output (the endpoints are the `i = 0` and `i = numPoints` interpolation
samples, and the 3×3 expansion always includes the in-range center). -/
theorem sampler_covers_endpoints (grid : ℚ → ℚ → Option (ℤ × ℤ))
    (s e : ℚ × ℚ) (t : Tile) :
    (lonLatToWplaceTile grid s.1 s.2 = some t →
      t ∈ getTilesForLineSegment grid s e) ∧
    (lonLatToWplaceTile grid e.1 e.2 = some t →
      t ∈ getTilesForLineSegment grid s e) := by
  constructor
  · intro hs
    exact mem_getTilesForLineSegment_of_sample grid s e s t
      (start_mem_samplePoints s e) hs
  · intro he
    exact mem_getTilesForLineSegment_of_sample grid s e e t
      (end_mem_samplePoints s e) he

/-- Witness for C4: a constant grid lookup sends the endpoint (1, 2) to tile
(5, 7), which the sampler's output contains. -/
theorem sampler_covers_endpoints_witness :
    (⟨5, 7, WPLACE_ZOOM⟩ : Tile) ∈
      getTilesForLineSegment (fun _ _ => some (5, 7)) (1, 2) (1, 2) :=
  (sampler_covers_endpoints (fun _ _ => some (5, 7)) (1, 2) (1, 2)
    ⟨5, 7, WPLACE_ZOOM⟩).1 (by decide)

/-- C2 counterexample: for the segment from (1, 2) to (1, 2) the chosen
sample count is `numPoints = max(2, ceil(0 × 1000)) = 2`, but the loop
`for (let i = 0; i <= numPoints; i++)` interpolates 3 points, not exactly
`numPoints` many. -/
theorem sampler_count_counterexample :
    numPoints (1, 2) (1, 2) = 2 ∧
      (samplePoints (1, 2) (1, 2)).length = 3 ∧
      (samplePoints (1, 2) (1, 2)).length ≠ numPoints (1, 2) (1, 2) := by
  have hn : numPoints (1, 2) (1, 2) = 2 := by simp [numPoints, maxDelta]
  refine ⟨hn, ?_, ?_⟩
  · rw [samplePoints_length, hn]
  · rw [samplePoints_length, hn]
    omega

/-- C2 (corrected): the sampler computes the bounding delta as the maximum of
|Δlon| and |Δlat|, chooses `numPoints = max(2, ceil(delta × 1000))`, and
linearly interpolates `numPoints + 1` points (parameters `i / numPoints` for
`i = 0 .. numPoints`, inclusive) — one more than the chosen count, because
the loop bound is inclusive. -/
theorem sampler_delta_count_interpolation (s e : ℚ × ℚ) :
    maxDelta s e = max |e.1 - s.1| |e.2 - s.2| ∧
      (numPoints s e : ℤ) = max 2 ⌈maxDelta s e * 1000⌉ ∧
      (samplePoints s e).length = numPoints s e + 1 ∧
      ∀ i (h : i < (samplePoints s e).length),
        (samplePoints s e).get ⟨i, h⟩ =
          (s.1 + (i : ℚ) / (numPoints s e : ℚ) * (e.1 - s.1),
           s.2 + (i : ℚ) / (numPoints s e : ℚ) * (e.2 - s.2)) :=
  ⟨rfl, numPoints_cast s e, samplePoints_length s e, samplePoints_get s e⟩

/-- Witness for C2 (corrected): instantiated on the segment (1, 2)–(3, 4) at
sample index 0. -/
theorem sampler_delta_count_interpolation_witness :
    (samplePoints (1, 2) (3, 4)).length = numPoints (1, 2) (3, 4) + 1 ∧
      (samplePoints (1, 2) (3, 4)).get
          ⟨0, by rw [samplePoints_length]; omega⟩ =
        ((1 : ℚ) + (0 : ℚ) / (numPoints (1, 2) (3, 4) : ℚ) * ((3 : ℚ) - 1),
         (2 : ℚ) + (0 : ℚ) / (numPoints (1, 2) (3, 4) : ℚ) * ((4 : ℚ) - 2)) :=
  ⟨(sampler_delta_count_interpolation (1, 2) (3, 4)).2.2.1,
    by
      have h := (sampler_delta_count_interpolation (1, 2) (3, 4)).2.2.2 0
        (by rw [samplePoints_length]; omega)
      simpa using h⟩

/-! ## Claim theorems: tile fetcher -/

/-- C6 (confirmed): for a tile whose output file already exists, the fetcher
performs no network request (the unconsumed response list is the whole input),
no wait, no retry and no state change, returning a short-circuit (`cached`)
result — regardless of whether the tile's key is in the negative cache. -/
theorem localFile_short_circuit (x y : ℤ) (rc : ℕ) (st : DLState)
    (responses : List FetchOutcome)
    (h : outputPath x y ∈ st.files) :
    ∃ res : DLResult,
      downloadWplaceTile x y rc st responses = some (res, st, [], responses) ∧
        res.cached = true := by
  by_cases hc : tileKey x y ∈ st.cache404
  · exact ⟨⟨false, some "cached_404", true⟩,
      by rw [downloadWplaceTile.eq_def]; simp [hc], rfl⟩
  · exact ⟨⟨true, some "already_exists", true⟩,
      by rw [downloadWplaceTile.eq_def]; simp [hc, h], rfl⟩

/-- Witness for C6: tile (3, 4) with its file on disk short-circuits even with
its key in the negative cache and responses available. -/
theorem localFile_short_circuit_witness :
    ∃ res : DLResult,
      downloadWplaceTile 3 4 0 ⟨[tileKey 3 4], false, [outputPath 3 4]⟩ [.ok] =
        some (res, ⟨[tileKey 3 4], false, [outputPath 3 4]⟩, [], [.ok]) ∧
        res.cached = true :=
  localFile_short_circuit 3 4 0 ⟨[tileKey 3 4], false, [outputPath 3 4]⟩ [.ok]
    (by simp)

/-- C5 (confirmed): an HTTP 404 for tile (x, y) adds the key `"x/y"` to the
negative cache, marks it dirty, and returns the confirmed-absent result; a
second fetch of the same tile in that state short-circuits to `cached_404`
with zero network calls (it succeeds on an empty response list). -/
theorem notFound_caches_then_short_circuits (x y : ℤ) (st st2 : DLState)
    (text : String)
    (hc : tileKey x y ∉ st.cache404) (hf : outputPath x y ∉ st.files)
    (hst2 : st2 = { st with cache404 := tileKey x y :: st.cache404,
                            needsSave := true }) :
    downloadWplaceTile x y 0 st [.httpErr 404 text] =
      some (⟨false, some "404", false⟩, st2, [], []) ∧
    tileKey x y ∈ st2.cache404 ∧ st2.needsSave = true ∧
    downloadWplaceTile x y 0 st2 [] =
      some (⟨false, some "cached_404", true⟩, st2, [], []) := by
  subst hst2
  refine ⟨?_, by simp, rfl, ?_⟩
  · rw [downloadWplaceTile]
    simp [hc, hf]
  · rw [downloadWplaceTile]
    simp

/-- Witness for C5: tile (5, 5) from the initial state. -/
theorem notFound_caches_then_short_circuits_witness :
    downloadWplaceTile 5 5 0 initialState [.httpErr 404 "Not Found"] =
      some (⟨false, some "404", false⟩, ⟨[tileKey 5 5], true, []⟩, [], []) ∧
    tileKey 5 5 ∈ (⟨[tileKey 5 5], true, []⟩ : DLState).cache404 ∧
    (⟨[tileKey 5 5], true, []⟩ : DLState).needsSave = true ∧
    downloadWplaceTile 5 5 0 ⟨[tileKey 5 5], true, []⟩ [] =
      some (⟨false, some "cached_404", true⟩, ⟨[tileKey 5 5], true, []⟩, [], []) :=
  notFound_caches_then_short_circuits 5 5 initialState ⟨[tileKey 5 5], true, []⟩
    "Not Found" (by simp [initialState]) (by simp [initialState]) rfl

/-- C1 counterexample: three consecutive HTTP 429 responses do not yet make
the fetch fail — the fetcher issues a fourth network request after the third
backoff, and if it succeeds the tile downloads (`success = true`), after
exactly 3 backoff waits of `DELAY_RATE_LIMIT_MS`. -/
theorem rateLimit_three_then_success_counterexample :
    downloadWplaceTile 2 2 0 initialState
      [.httpErr 429 "Too Many Requests", .httpErr 429 "Too Many Requests",
       .httpErr 429 "Too Many Requests", .ok] =
      some (⟨true, none, false⟩, ⟨[], false, [outputPath 2 2]⟩,
        [DELAY_RATE_LIMIT_MS, DELAY_RATE_LIMIT_MS, DELAY_RATE_LIMIT_MS], []) := by
  decide

/-- C1 (corrected): four consecutive HTTP 429 responses (the initial attempt
plus the full budget of 3 rate-limit retries) make the fetch fail via the
generic-failure path, after exactly 3 backoff waits of the fixed
`DELAY_RATE_LIMIT_MS = 5000` interval and no further wait; each 429 below the
limit waits the fixed backoff and retries the same tile. -/
theorem rateLimit_exhaustion_fails (x y : ℤ) (st : DLState)
    (t1 t2 t3 t4 : String) (rest : List FetchOutcome)
    (hc : tileKey x y ∉ st.cache404)
    (hf : outputPath x y ∉ st.files) :
    downloadWplaceTile x y 0 st
      (.httpErr 429 t1 :: .httpErr 429 t2 :: .httpErr 429 t3 ::
        .httpErr 429 t4 :: rest) =
      some (⟨false, some (genericFailureMessage (.httpErr 429 t4)), false⟩, st,
        [DELAY_RATE_LIMIT_MS, DELAY_RATE_LIMIT_MS, DELAY_RATE_LIMIT_MS], rest) ∧
    DELAY_RATE_LIMIT_MS = 5000 := by
  refine ⟨?_, rfl⟩
  have h3 : downloadWplaceTile x y 3 st (.httpErr 429 t4 :: rest) =
      some (⟨false, some (genericFailureMessage (.httpErr 429 t4)), false⟩,
        st, [], rest) := by
    rw [downloadWplaceTile]
    simp [hc, hf, genericFailureMessage]
  have h2 : downloadWplaceTile x y 2 st
      (.httpErr 429 t3 :: .httpErr 429 t4 :: rest) =
      some (⟨false, some (genericFailureMessage (.httpErr 429 t4)), false⟩,
        st, [DELAY_RATE_LIMIT_MS], rest) := by
    rw [downloadWplaceTile]
    simp [hc, hf, h3]
  have h1 : downloadWplaceTile x y 1 st
      (.httpErr 429 t2 :: .httpErr 429 t3 :: .httpErr 429 t4 :: rest) =
      some (⟨false, some (genericFailureMessage (.httpErr 429 t4)), false⟩,
        st, [DELAY_RATE_LIMIT_MS, DELAY_RATE_LIMIT_MS], rest) := by
    rw [downloadWplaceTile]
    simp [hc, hf, h2]
  rw [downloadWplaceTile]
  simp [hc, hf, h1]

/-- Witness for C1 (corrected): tile (2, 2) from the initial state, four 429
responses. -/
theorem rateLimit_exhaustion_fails_witness :
    downloadWplaceTile 2 2 0 initialState
      [.httpErr 429 "T", .httpErr 429 "T", .httpErr 429 "T", .httpErr 429 "T"] =
      some (⟨false, some (genericFailureMessage (.httpErr 429 "T")), false⟩,
        initialState,
        [DELAY_RATE_LIMIT_MS, DELAY_RATE_LIMIT_MS, DELAY_RATE_LIMIT_MS], []) ∧
    DELAY_RATE_LIMIT_MS = 5000 :=
  rateLimit_exhaustion_fails 2 2 initialState "T" "T" "T" "T" []
    (by simp [initialState]) (by simp [initialState])

/-- C10 (confirmed): the rate-limit and transient retry budgets share the one
`retryCount` counter — after two (or three) 5-second rate-limit backoffs, a
transport error or a non-404/429 HTTP error fails immediately, with no
1-second transient retry (the wait log holds only the rate-limit backoffs
and the whole remaining response list is unconsumed). -/
theorem shared_retry_counter (x y : ℤ) (st : DLState) (t1 t2 t3 : String)
    (e : FetchOutcome) (rest : List FetchOutcome)
    (hc : tileKey x y ∉ st.cache404)
    (hf : outputPath x y ∉ st.files)
    (he : isGenericError e) :
    downloadWplaceTile x y 0 st (.httpErr 429 t1 :: .httpErr 429 t2 :: e :: rest) =
      some (⟨false, some (genericFailureMessage e), false⟩, st,
        [DELAY_RATE_LIMIT_MS, DELAY_RATE_LIMIT_MS], rest) ∧
    downloadWplaceTile x y 0 st
      (.httpErr 429 t1 :: .httpErr 429 t2 :: .httpErr 429 t3 :: e :: rest) =
      some (⟨false, some (genericFailureMessage e), false⟩, st,
        [DELAY_RATE_LIMIT_MS, DELAY_RATE_LIMIT_MS, DELAY_RATE_LIMIT_MS], rest) := by
  have hterm : ∀ rc, 2 ≤ rc →
      downloadWplaceTile x y rc st (e :: rest) =
        some (⟨false, some (genericFailureMessage e), false⟩, st, [], rest) := by
    intro rc hrc
    cases e with
    | ok => exact absurd he (by simp [isGenericError])
    | httpErr status text =>
        obtain ⟨h404, h429⟩ := he
        rw [downloadWplaceTile]
        simp [hc, hf, h404, h429, genericFailureMessage, Nat.not_lt.mpr hrc]
    | netErr msg =>
        rw [downloadWplaceTile]
        simp [hc, hf, genericFailureMessage, Nat.not_lt.mpr hrc]
  constructor
  · have h1 : downloadWplaceTile x y 1 st (.httpErr 429 t2 :: e :: rest) =
        some (⟨false, some (genericFailureMessage e), false⟩, st,
          [DELAY_RATE_LIMIT_MS], rest) := by
      rw [downloadWplaceTile]
      simp [hc, hf, hterm 2 (by norm_num)]
    rw [downloadWplaceTile]
    simp [hc, hf, h1]
  · have h2 : downloadWplaceTile x y 2 st (.httpErr 429 t3 :: e :: rest) =
        some (⟨false, some (genericFailureMessage e), false⟩, st,
          [DELAY_RATE_LIMIT_MS], rest) := by
      rw [downloadWplaceTile]
      simp [hc, hf, hterm 3 (by norm_num)]
    have h1 : downloadWplaceTile x y 1 st
        (.httpErr 429 t2 :: .httpErr 429 t3 :: e :: rest) =
        some (⟨false, some (genericFailureMessage e), false⟩, st,
          [DELAY_RATE_LIMIT_MS, DELAY_RATE_LIMIT_MS], rest) := by
      rw [downloadWplaceTile]
      simp [hc, hf, h2]
    rw [downloadWplaceTile]
    simp [hc, hf, h1]

/-- Witness for C10: tile (1, 1) from the initial state, two 429 responses
then a transport error. -/
theorem shared_retry_counter_witness :
    downloadWplaceTile 1 1 0 initialState
      [.httpErr 429 "T", .httpErr 429 "T", .netErr "connection reset"] =
      some (⟨false, some (genericFailureMessage (.netErr "connection reset")),
        false⟩, initialState, [DELAY_RATE_LIMIT_MS, DELAY_RATE_LIMIT_MS], []) ∧
    downloadWplaceTile 1 1 0 initialState
      [.httpErr 429 "T", .httpErr 429 "T", .httpErr 429 "T",
        .netErr "connection reset"] =
      some (⟨false, some (genericFailureMessage (.netErr "connection reset")),
        false⟩, initialState,
        [DELAY_RATE_LIMIT_MS, DELAY_RATE_LIMIT_MS, DELAY_RATE_LIMIT_MS], []) :=
  shared_retry_counter 1 1 initialState "T" "T" "T" (.netErr "connection reset")
    [] (by simp [initialState]) (by simp [initialState])
    (by simp [isGenericError])

theorem has404Response_head (text : String) (rest : List FetchOutcome) :
    has404Response (FetchOutcome.httpErr 404 text :: rest) = true := by
  simp [has404Response]

theorem has404Response_tail (r : FetchOutcome) (rest : List FetchOutcome)
    (h : has404Response rest = true) : has404Response (r :: rest) = true := by
  simp only [has404Response, List.any_cons] at *
  exact Bool.or_eq_true_iff.mpr (Or.inr h)

/-- The cache-growth invariant of a single fetch: the updated cache contains
every key of the old one, and any new key is this tile's key, added together
with the confirmed-absent (`'404'`) result after an HTTP 404 response. -/
theorem downloadWplaceTile_cache_growth :
    ∀ (responses : List FetchOutcome) (x y : ℤ) (rc : ℕ) (st : DLState)
      (res : DLResult) (st2 : DLState) (waits : List ℕ)
      (rem : List FetchOutcome),
      downloadWplaceTile x y rc st responses = some (res, st2, waits, rem) →
      (∀ k, k ∈ st.cache404 → k ∈ st2.cache404) ∧
      (∀ k, k ∈ st2.cache404 → k ∈ st.cache404 ∨
        (k = tileKey x y ∧ res.reason = some "404" ∧
          has404Response responses = true)) := by
  intro responses
  induction responses with
  | nil =>
      intro x y rc st res st2 waits rem h
      rw [downloadWplaceTile.eq_def] at h
      split_ifs at h with h1 h2 <;> simp_all
  | cons r rest ih =>
      intro x y rc st res st2 waits rem h
      rw [downloadWplaceTile.eq_def] at h
      by_cases h1 : st.cache404.contains (tileKey x y) = true
      · rw [if_pos h1] at h
        simp only [Option.some.injEq, Prod.mk.injEq] at h
        obtain ⟨_, hst, _⟩ := h
        subst hst
        exact ⟨fun k hk => hk, fun k hk => Or.inl hk⟩
      · rw [if_neg h1] at h
        by_cases h2 : st.files.contains (outputPath x y) = true
        · rw [if_pos h2] at h
          simp only [Option.some.injEq, Prod.mk.injEq] at h
          obtain ⟨_, hst, _⟩ := h
          subst hst
          exact ⟨fun k hk => hk, fun k hk => Or.inl hk⟩
        · rw [if_neg h2] at h
          cases r with
          | ok =>
              simp only [Option.some.injEq, Prod.mk.injEq] at h
              obtain ⟨_, hst, _⟩ := h
              subst hst
              exact ⟨fun k hk => hk, fun k hk => Or.inl hk⟩
          | httpErr status text =>
              dsimp only at h
              by_cases h404 : status = 404
              · rw [if_pos h404] at h
                simp only [Option.some.injEq, Prod.mk.injEq] at h
                obtain ⟨hres, hst, _⟩ := h
                subst hst
                refine ⟨fun k hk => List.mem_cons_of_mem _ hk, fun k hk => ?_⟩
                rcases List.mem_cons.mp hk with heq | hmem
                · exact Or.inr ⟨heq, by rw [← hres],
                    by rw [h404]; exact has404Response_head text rest⟩
                · exact Or.inl hmem
              · rw [if_neg h404] at h
                by_cases h429 : status = 429 ∧ rc < 3
                · rw [if_pos h429] at h
                  cases hrec : downloadWplaceTile x y (rc + 1) st rest with
                  | none => rw [hrec] at h; simp at h
                  | some val =>
                      obtain ⟨res', st2', waits', rem'⟩ := val
                      rw [hrec] at h
                      simp only [Option.some.injEq, Prod.mk.injEq] at h
                      obtain ⟨hres, hst, _⟩ := h
                      subst hres hst
                      obtain ⟨hmono, hjust⟩ :=
                        ih x y (rc + 1) st res' st2' waits' rem' hrec
                      refine ⟨hmono, fun k hk => ?_⟩
                      rcases hjust k hk with hmem | ⟨hkey, hreason, h404r⟩
                      · exact Or.inl hmem
                      · exact Or.inr ⟨hkey, hreason,
                          has404Response_tail _ _ h404r⟩
                · rw [if_neg h429] at h
                  by_cases hrc : rc < 2
                  · rw [if_pos hrc] at h
                    cases hrec : downloadWplaceTile x y (rc + 1) st rest with
                    | none => rw [hrec] at h; simp at h
                    | some val =>
                        obtain ⟨res', st2', waits', rem'⟩ := val
                        rw [hrec] at h
                        simp only [Option.some.injEq, Prod.mk.injEq] at h
                        obtain ⟨hres, hst, _⟩ := h
                        subst hres hst
                        obtain ⟨hmono, hjust⟩ :=
                          ih x y (rc + 1) st res' st2' waits' rem' hrec
                        refine ⟨hmono, fun k hk => ?_⟩
                        rcases hjust k hk with hmem | ⟨hkey, hreason, h404r⟩
                        · exact Or.inl hmem
                        · exact Or.inr ⟨hkey, hreason,
                            has404Response_tail _ _ h404r⟩
                  · rw [if_neg hrc] at h
                    simp only [Option.some.injEq, Prod.mk.injEq] at h
                    obtain ⟨_, hst, _⟩ := h
                    subst hst
                    exact ⟨fun k hk => hk, fun k hk => Or.inl hk⟩
          | netErr msg =>
              dsimp only at h
              by_cases hrc : rc < 2
              · rw [if_pos hrc] at h
                cases hrec : downloadWplaceTile x y (rc + 1) st rest with
                | none => rw [hrec] at h; simp at h
                | some val =>
                    obtain ⟨res', st2', waits', rem'⟩ := val
                    rw [hrec] at h
                    simp only [Option.some.injEq, Prod.mk.injEq] at h
                    obtain ⟨hres, hst, _⟩ := h
                    subst hres hst
                    obtain ⟨hmono, hjust⟩ :=
                      ih x y (rc + 1) st res' st2' waits' rem' hrec
                    refine ⟨hmono, fun k hk => ?_⟩
                    rcases hjust k hk with hmem | ⟨hkey, hreason, h404r⟩
                    · exact Or.inl hmem
                    · exact Or.inr ⟨hkey, hreason,
                        has404Response_tail _ _ h404r⟩
              · rw [if_neg hrc] at h
                simp only [Option.some.injEq, Prod.mk.injEq] at h
                obtain ⟨_, hst, _⟩ := h
                subst hst
                exact ⟨fun k hk => hk, fun k hk => Or.inl hk⟩

/-- C9 (confirmed): within a run the negative cache only grows.  A fetch
preserves every existing key and adds at most this tile's key, and only
together with the confirmed-absent result after an upstream HTTP 404
response; flushing (`saveCache404`) never changes the set of cached keys.
(Sampling, `getTilesForLineSegment`, is pure and holds no state at all.) -/
theorem cache_monotone_growth :
    (∀ (responses : List FetchOutcome) (x y : ℤ) (rc : ℕ) (st : DLState)
      (res : DLResult) (st2 : DLState) (waits : List ℕ)
      (rem : List FetchOutcome),
      downloadWplaceTile x y rc st responses = some (res, st2, waits, rem) →
      (∀ k, k ∈ st.cache404 → k ∈ st2.cache404) ∧
      (∀ k, k ∈ st2.cache404 → k ∈ st.cache404 ∨
        (k = tileKey x y ∧ res.reason = some "404" ∧
          has404Response responses = true))) ∧
    (∀ (st : DLState) (cacheFile : CacheFile),
      ((saveCache404 st cacheFile).1).cache404 = st.cache404) := by
  refine ⟨downloadWplaceTile_cache_growth, ?_⟩
  intro st cacheFile
  unfold saveCache404
  split <;> rfl

/-- Witness for C9: the key `"5/6"` that appears in the cache after fetching
tile (5, 6) from the fresh state against a single 404 response is a new key
justified by that 404 response. -/
theorem cache_monotone_growth_witness :
    tileKey 5 6 ∈ initialState.cache404 ∨
      (tileKey 5 6 = tileKey 5 6 ∧
        (⟨false, some "404", false⟩ : DLResult).reason = some "404" ∧
        has404Response [FetchOutcome.httpErr 404 "Not Found"] = true) :=
  ((cache_monotone_growth.1 [FetchOutcome.httpErr 404 "Not Found"] 5 6 0
      initialState ⟨false, some "404", false⟩ ⟨[tileKey 5 6], true, []⟩ [] []
      (by decide)).2 (tileKey 5 6) (by decide))

/-! ## Claim theorems: cache persistence and driver -/

/-- C7 (confirmed): negative cache round-trip.  For any dirty state, flushing
writes the whole key set; a new run that loads the flushed file reports
`contains = true` for every flushed key, and fetching a tile whose key was
flushed short-circuits to `cached_404` even with no network available (the
empty response list). -/
theorem cache_roundtrip (st : DLState) (cacheFile : CacheFile) (key : String)
    (x y : ℤ)
    (hdirty : st.needsSave = true)
    (hkey : key ∈ st.cache404)
    (hxy : tileKey x y ∈ st.cache404) :
    (loadCache404 initialState (saveCache404 st cacheFile).2).cache404.contains
        key = true ∧
    downloadWplaceTile x y 0
        (loadCache404 initialState (saveCache404 st cacheFile).2) [] =
      some (⟨false, some "cached_404", true⟩,
        loadCache404 initialState (saveCache404 st cacheFile).2, [], []) := by
  have hsave : (saveCache404 st cacheFile).2 = some st.cache404 := by
    unfold saveCache404
    rw [if_pos hdirty]
  have hload : loadCache404 initialState (saveCache404 st cacheFile).2 =
      { initialState with cache404 := st.cache404 } := by
    rw [hsave]
    rfl
  rw [hload]
  constructor
  · simpa using hkey
  · rw [downloadWplaceTile.eq_def]
    simp [hxy]

/-- Witness for C7: the single flushed key `"7/8"` survives the round-trip
and suppresses the network on reload. -/
theorem cache_roundtrip_witness :
    (loadCache404 initialState
        (saveCache404 ⟨[tileKey 7 8], true, []⟩ none).2).cache404.contains
        (tileKey 7 8) = true ∧
    downloadWplaceTile 7 8 0
        (loadCache404 initialState
          (saveCache404 ⟨[tileKey 7 8], true, []⟩ none).2) [] =
      some (⟨false, some "cached_404", true⟩,
        loadCache404 initialState
          (saveCache404 ⟨[tileKey 7 8], true, []⟩ none).2, [], []) :=
  cache_roundtrip ⟨[tileKey 7 8], true, []⟩ none (tileKey 7 8) 7 8 rfl
    (by decide) (by decide)

/-- C8 counterexample: on the fatal-abort path (feed retrieval failed) the
driver prints the fatal-error line and flushes the cache but does not print
the count-by-outcome summary — `containsSummary` of the whole output is
false, refuting "the summary is always printed on both success and
fatal-abort". -/
theorem driver_fatal_no_summary_counterexample :
    downloadWplaceLineTiles
        (Except.error "Failed to fetch GeoJSON: Internal Server Error")
        noResponses initialState none =
      some ([DriverEvent.fatalError
          "Failed to fetch GeoJSON: Internal Server Error"],
        initialState, none, 1) ∧
    containsSummary [DriverEvent.fatalError
        "Failed to fetch GeoJSON: Internal Server Error"] = false := by
  decide

/-- C8 (corrected): the final count-by-outcome summary is printed exactly on
the normal-completion path with a non-empty worklist (where the run also
exits with code 0); on the fatal-abort path the driver prints only the
fatal-error line — after a cache flush — exits 1, and prints no summary. -/
theorem summary_on_success_only (feedMsg : String)
    (resp : ℕ → List FetchOutcome) (st0 : DLState) (cf : CacheFile) :
    (downloadWplaceLineTiles (Except.error feedMsg) resp st0 cf =
        some ([DriverEvent.fatalError feedMsg],
          (saveCache404 (loadCache404 st0 cf) cf).1,
          (saveCache404 (loadCache404 st0 cf) cf).2, 1) ∧
      containsSummary [DriverEvent.fatalError feedMsg] = false) ∧
    (∀ (tiles : List (ℤ × ℤ)) (out : List DriverEvent × DLState × CacheFile × ℕ),
      tiles ≠ [] →
      downloadWplaceLineTiles (Except.ok tiles) resp st0 cf = some out →
      out.2.2.2 = 0 ∧ containsSummary out.1 = true) := by
  constructor
  · exact ⟨rfl, by simp [containsSummary, isSummaryEvent]⟩
  · intro tiles out hne hout
    unfold downloadWplaceLineTiles at hout
    dsimp only at hout
    rw [List.isEmpty_eq_false.mpr hne] at hout
    simp only [Bool.false_eq_true, if_false] at hout
    cases heq : driverLoop resp tiles 0 (loadCache404 st0 cf) cf 0 0 0 0 [] with
    | none => rw [heq] at hout; simp at hout
    | some val =>
        obtain ⟨events, st2, cf2, d, s, m, f⟩ := val
        rw [heq] at hout
        simp only [Option.some.injEq] at hout
        subst hout
        refine ⟨rfl, ?_⟩
        simp [containsSummary, isSummaryEvent]

/-- Witness for C8 (corrected): a one-tile run whose fetch succeeds ends with
exit code 0 and an event list containing the summary line. -/
theorem summary_on_success_only_witness :
    ((0 : ℕ) = 0 ∧
      containsSummary [DriverEvent.progress 1 2, DriverEvent.tileDownloaded,
        DriverEvent.summary 1 0 0 0] = true) :=
  (summary_on_success_only "unused" singleOkResponses initialState none).2
    [(1, 2)]
    ([DriverEvent.progress 1 2, DriverEvent.tileDownloaded,
      DriverEvent.summary 1 0 0 0], ⟨[], false, [outputPath 1 2]⟩, none, 0)
    (by decide) (by decide)

end WplaceDownloader
